import Mathlib

/-!
Shallow embedding of `src/scripts/utils/markdown_to_html.py`.

Strings are modelled as `List Char` (`Str`).  Each Python `re.sub` call is
translated into a left-to-right scanner over the character list with the
matching semantics of the concrete regex at that call site: leftmost match,
greedy/lazy behaviour resolved by hand for each pattern, and scanning
resumes after the end of each replaced match.  Scanners whose recursion is
not structural carry a fuel argument; top-level wrappers pass the input
length as fuel, which is always sufficient because every recursive call
strictly shrinks the remaining input while consuming one unit of fuel.
-/

namespace MdToHtml

/-- Strings as lists of characters. -/
abbrev Str := List Char

/-- Convert a Lean string literal to the `Str` model. -/
def ofString (s : String) : Str := s.data

/-- The backtick character (U+0060). -/
def tick : Char := '\x60'

/-- Three backticks: the code-fence delimiter. -/
def ticks3 : Str := [tick, tick, tick]

/-- Does `s` start with the literal pattern `p`? -/
def strStarts : Str → Str → Bool
  | [], _ => true
  | _ :: _, [] => false
  | p :: ps, c :: cs => p = c && strStarts ps cs

/-- Greedy run of characters satisfying `p` (a regex character-class `*`/`+`
run): the maximal prefix of characters with `p` and the remainder. -/
def spanP (p : Char → Bool) : Str → Str × Str
  | [] => ([], [])
  | c :: r =>
    if p c then
      let q := spanP p r
      (c :: q.1, q.2)
    else ([], c :: r)

/-- Python `content.split('\n')`: split into lines at newline characters;
always returns at least one (possibly empty) piece. -/
def splitNl : Str → List Str
  | [] => [[]]
  | c :: rest =>
    if c = '\n' then [] :: splitNl rest
    else
      match splitNl rest with
      | l :: ls => (c :: l) :: ls
      | [] => [[c]]

/-- Python `'\n'.join(lines)`. -/
def joinNl : List Str → Str
  | [] => []
  | [l] => l
  | l :: ls => l ++ '\n' :: joinNl ls

/-! ## Stage 1-3: fenced code blocks (lines 22-39 of the source)

The three `re.sub` calls use the patterns
`r'```dart\n?([\s\S]*?)```'`, `r'```([a-zA-Z]*)\n?([\s\S]*?)```'` and
`r'```\n?([\s\S]*?)```'`.  In each, the lazy `([\s\S]*?)` group ends at the
first later occurrence of three backticks, and the optional `\n?` consumes a
newline directly after the opening fence (greedily; whether it is consumed
never affects whether a closing fence exists, since a fence contains no
newline).  If no closing fence exists after an opening fence, no match can
start anywhere later either, because every later match would need a
closing triple-backtick strictly inside the remainder, which has none; the
scanners therefore return the remaining text unchanged in that case. -/

/-- Find the first occurrence of three consecutive backticks; return the
text before it and the text after it. -/
def splitClose : Str → Option (Str × Str)
  | c1 :: c2 :: c3 :: rest =>
    if c1 = tick ∧ c2 = tick ∧ c3 = tick then some ([], rest)
    else
      match splitClose (c2 :: c3 :: rest) with
      | some (pre, post) => some (c1 :: pre, post)
      | none => none
  | _ => none

/-- Drop a single leading newline if present (the `\n?` after an opening
fence). -/
def dropOptNl (s : Str) : Str :=
  match s with
  | c :: r => if c = '\n' then r else s
  | [] => []

/-- The replacement template shared by the three fence substitutions:
`<pre class="language-TAG line-numbers"><code class="language-TAG">`. -/
def preOpen (tag : Str) : Str :=
  ofString "<pre class=\"language-" ++ tag ++
    ofString " line-numbers\"><code class=\"language-" ++ tag ++ ofString "\">"

/-- Closing part of the fence replacement. -/
def preClose : Str := ofString "</code></pre>"

/-- The literal `dart` tag. -/
def dartTag : Str := ofString "dart"

/-- ASCII letter test, i.e. the regex class `[a-zA-Z]`. -/
def isAsciiAlpha (c : Char) : Bool :=
  ('a' ≤ c && c ≤ 'z') || ('A' ≤ c && c ≤ 'Z')

/-- First fence pass: `re.sub(r'```dart\n?([\s\S]*?)```', ...)`. -/
def subDartFence : Nat → Str → Str
  | 0, s => s
  | _ + 1, [] => []
  | fuel + 1, c :: rest =>
    if strStarts (ticks3 ++ dartTag) (c :: rest) then
      match splitClose (dropOptNl (List.drop 7 (c :: rest))) with
      | some (content, after) =>
          preOpen dartTag ++ content ++ preClose ++ subDartFence fuel after
      | none => c :: rest
    else c :: subDartFence fuel rest

/-- Second fence pass: `re.sub(r'```([a-zA-Z]*)\n?([\s\S]*?)```', ...)`.
Note `[a-zA-Z]*` also matches the empty tag. -/
def subLangFence : Nat → Str → Str
  | 0, s => s
  | _ + 1, [] => []
  | fuel + 1, c :: rest =>
    if strStarts ticks3 (c :: rest) then
      let sp := spanP isAsciiAlpha (List.drop 3 (c :: rest))
      match splitClose (dropOptNl sp.2) with
      | some (content, after) =>
          preOpen sp.1 ++ content ++ preClose ++ subLangFence fuel after
      | none => c :: rest
    else c :: subLangFence fuel rest

/-- Third fence pass: `re.sub(r'```\n?([\s\S]*?)```', ...)`, replacement
class suffix fixed to `dart`. -/
def subEmptyFence : Nat → Str → Str
  | 0, s => s
  | _ + 1, [] => []
  | fuel + 1, c :: rest =>
    if strStarts ticks3 (c :: rest) then
      match splitClose (dropOptNl (List.drop 3 (c :: rest))) with
      | some (content, after) =>
          preOpen dartTag ++ content ++ preClose ++ subEmptyFence fuel after
      | none => c :: rest
    else c :: subEmptyFence fuel rest

/-- The three fence passes in source order (lines 22-39). -/
def fenceStage (s : Str) : Str :=
  let s1 := subDartFence s.length s
  let s2 := subLangFence s1.length s1
  subEmptyFence s2.length s2

/-! ## Stage 4: inline code (line 42): `re.sub(r'`([^`\n]+)`', ...)` -/

/-- Inline-code pass.  At a backtick, the greedy `[^`\n]+` takes the
maximal run of non-backtick, non-newline characters; the match succeeds
iff that run is non-empty and is followed by a backtick.  On failure the
scan moves on by one character, exactly as the regex engine retries at the
next position. -/
def subInlineCode : Nat → Str → Str
  | 0, s => s
  | _ + 1, [] => []
  | fuel + 1, c :: rest =>
    if c = tick then
      let sp := spanP (fun ch => ch ≠ tick && ch ≠ '\n') rest
      if sp.1 ≠ [] ∧ strStarts [tick] sp.2 then
        ofString "<code>" ++ sp.1 ++ ofString "</code>" ++
          subInlineCode fuel (List.drop 1 sp.2)
      else c :: subInlineCode fuel rest
    else c :: subInlineCode fuel rest

/-! ## Stage 5: headers (lines 45-48)

Each of the four calls is `re.sub(r'^#..# (.+)$', ..., flags=MULTILINE)`.
Because `.` does not match a newline and `^`/`$` anchor at line
boundaries, every match is one entire line and the replacement preserves
the line structure, so each call is equivalent to a per-line rewrite. -/

/-- One header substitution: a line starting with the literal marker `pat`
(`n` hashes and a space) and having at least one further character becomes
`openT ++ remainder ++ closeT`. -/
def headerSub (openT closeT pat : Str) (s : Str) : Str :=
  joinNl ((splitNl s).map (fun l =>
    if strStarts pat l ∧ List.drop pat.length l ≠ [] then
      openT ++ List.drop pat.length l ++ closeT
    else l))

/-- The four header passes in source order. -/
def headerStage (s : Str) : Str :=
  let s1 := headerSub (ofString "<h1>") (ofString "</h1>") (ofString "# ") s
  let s2 := headerSub (ofString "<h2>") (ofString "</h2>") (ofString "## ") s1
  let s3 := headerSub (ofString "<h3>") (ofString "</h3>") (ofString "### ") s2
  headerSub (ofString "<h4>") (ofString "</h4>") (ofString "#### ") s3

/-! ## Stage 6: the list-block scanner (lines 50-89) -/

/-- Bullet-line test: `re.match(r'^- ', line)`. -/
def isBulletLine (l : Str) : Bool := strStarts (ofString "- ") l

/-- Length of the numbered-item marker, if the line matches
`re.match(r'^[0-9]+\\. ', line)`: one or more digits, then a literal
backslash, then any single character other than a newline (the regex `.`),
then a space. -/
def numMarkerLen (l : Str) : Option Nat :=
  let p := spanP (fun c => '0' ≤ c && c ≤ '9') l
  if p.1 = [] then none
  else
    match p.2 with
    | b :: anyc :: sp :: _ =>
        if b = '\\' ∧ anyc ≠ '\n' ∧ sp = ' ' then some (p.1.length + 3) else none
    | _ => none

/-- Numbered-line test. -/
def isNumberedLine (l : Str) : Bool := (numMarkerLen l).isSome

/-- Model of `re.sub(r'^[0-9]+\\. ', '', line)`: the pattern is anchored
and the flag is not MULTILINE, so at most the single leading marker is
removed. -/
def stripNumMarker (l : Str) : Str :=
  match numMarkerLen l with
  | some n => List.drop n l
  | none => l

/-- The list-item element: `f'<li>{...}</li>'`. -/
def liWrap (s : Str) : Str := ofString "<li>" ++ s ++ ofString "</li>"

/-- One iteration of the `for line in lines` loop: given the state
`(in_ul, in_ol)` and the line, return the new state and the lines appended
to `result`, in the order the source appends them. -/
def processLine : Bool × Bool → Str → (Bool × Bool) × List Str := fun st line =>
  if isBulletLine line then
    ((true, false),
      (if !st.1 then [ofString "<ul>"] else []) ++
      (if st.2 then [ofString "</ol>"] else []) ++
      [liWrap (List.drop 2 line)])
  else if isNumberedLine line then
    ((false, true),
      (if !st.2 then [ofString "<ol>"] else []) ++
      (if st.1 then [ofString "</ul>"] else []) ++
      [liWrap (stripNumMarker line)])
  else
    ((false, false),
      (if st.1 then [ofString "</ul>"] else []) ++
      (if st.2 then [ofString "</ol>"] else []) ++
      [line])

/-- The whole loop, including the trailing close of any still-open run
(lines 84-87). -/
def listLoop : Bool × Bool → List Str → List Str
  | st, [] =>
      (if st.1 then [ofString "</ul>"] else []) ++
      (if st.2 then [ofString "</ol>"] else [])
  | st, line :: rest =>
      (processLine st line).2 ++ listLoop (processLine st line).1 rest

/-- The list stage: split into lines, scan, rejoin (lines 51, 56-89). -/
def listStage (s : Str) : Str := joinNl (listLoop (false, false) (splitNl s))

/-! ## Stage 7-8: emphasis (lines 92-93) -/

/-- Bold pass: `re.sub(r'\*\*([^\*]+)\*\*', r'<strong>\1</strong>', ...)`. -/
def subBold : Nat → Str → Str
  | 0, s => s
  | _ + 1, [] => []
  | fuel + 1, c :: rest =>
    if strStarts (ofString "**") (c :: rest) then
      let sp := spanP (fun ch => ch ≠ '*') (List.drop 2 (c :: rest))
      if sp.1 ≠ [] ∧ strStarts (ofString "**") sp.2 then
        ofString "<strong>" ++ sp.1 ++ ofString "</strong>" ++
          subBold fuel (List.drop 2 sp.2)
      else c :: subBold fuel rest
    else c :: subBold fuel rest

/-- Italic pass: `re.sub(r'\*([^\*]+)\*', r'<em>\1</em>', ...)`. -/
def subItalic : Nat → Str → Str
  | 0, s => s
  | _ + 1, [] => []
  | fuel + 1, c :: rest =>
    if c = '*' then
      let sp := spanP (fun ch => ch ≠ '*') rest
      if sp.1 ≠ [] ∧ strStarts (ofString "*") sp.2 then
        ofString "<em>" ++ sp.1 ++ ofString "</em>" ++
          subItalic fuel (List.drop 1 sp.2)
      else c :: subItalic fuel rest
    else c :: subItalic fuel rest

/-! ## Stage 9: links (line 96) -/

/-- Link pass: `re.sub(r'\[([^\]]+)\]\(([^\)]+)\)', r'<a href="\2">\1</a>', ...)`. -/
def subLink : Nat → Str → Str
  | 0, s => s
  | _ + 1, [] => []
  | fuel + 1, c :: rest =>
    if c = '[' then
      let lab := spanP (fun ch => ch ≠ ']') rest
      match lab.2 with
      | b1 :: b2 :: r2 =>
        if b1 = ']' ∧ b2 = '(' ∧ lab.1 ≠ [] then
          let url := spanP (fun ch => ch ≠ ')') r2
          match url.2 with
          | p1 :: r4 =>
            if p1 = ')' ∧ url.1 ≠ [] then
              ofString "<a href=\"" ++ url.1 ++ ofString "\">" ++ lab.1 ++
                ofString "</a>" ++ subLink fuel r4
            else c :: subLink fuel rest
          | [] => c :: subLink fuel rest
        else c :: subLink fuel rest
      | _ => c :: subLink fuel rest
    else c :: subLink fuel rest

/-! ## Stage 10: paragraph wrapping (lines 99-107) -/

/-- Python's default `str.strip` whitespace: exactly the characters for
which CPython's `Py_UNICODE_ISSPACE` holds (the `str.isspace` set):
U+0009-U+000D, U+001C-U+0020, U+0085, U+00A0, U+1680, U+2000-U+200A,
U+2028, U+2029, U+202F, U+205F and U+3000. -/
def isPySpace (c : Char) : Bool :=
  (9 ≤ c.toNat && c.toNat ≤ 13) || (28 ≤ c.toNat && c.toNat ≤ 32) ||
    c.toNat = 133 || c.toNat = 160 || c.toNat = 5760 ||
    (8192 ≤ c.toNat && c.toNat ≤ 8202) || c.toNat = 8232 || c.toNat = 8233 ||
    c.toNat = 8239 || c.toNat = 8287 || c.toNat = 12288

/-- One line of the paragraph pass:
`if line.strip() and not line.startswith('<') and not line == '<br>'`. -/
def wrapLine (l : Str) : Str :=
  if (l.any fun ch => !isPySpace ch) ∧ ¬ strStarts (ofString "<") l ∧
      l ≠ ofString "<br>" then
    ofString "<p>" ++ l ++ ofString "</p>"
  else l

/-- The paragraph-wrapping stage: split, wrap each line, rejoin. -/
def wrapStage (s : Str) : Str := joinNl ((splitNl s).map wrapLine)

/-- The inline-code stage (line 42). -/
def inlineCodeStage (s : Str) : Str := subInlineCode s.length s

/-- The bold stage (line 92). -/
def boldStage (s : Str) : Str := subBold s.length s

/-- The italic stage (line 93). -/
def italicStage (s : Str) : Str := subItalic s.length s

/-- The link stage (line 96). -/
def linkStage (s : Str) : Str := subLink s.length s

/-- The full transformer `convert_markdown_to_html` (lines 11-107): the
ordered composition of all stages. -/
def convert_markdown_to_html (s : Str) : Str :=
  wrapStage (linkStage (italicStage (boldStage (listStage
    (headerStage (inlineCodeStage (fenceStage s)))))))

/-! ## Template substitution in `convert_file` (lines 126-138) -/

/-- Python `s.replace(pat, rep)` for a non-empty `pat`: replace every
non-overlapping occurrence, scanning left to right, never rescanning
replaced text.  (Python's special behaviour for an empty `pat` is not
modelled; both patterns used by the source are non-empty.) -/
def pyReplaceGo (pat rep : Str) : Nat → Str → Str
  | 0, s => s
  | _ + 1, [] => []
  | fuel + 1, c :: rest =>
    if strStarts pat (c :: rest) then
      rep ++ pyReplaceGo pat rep fuel (List.drop pat.length (c :: rest))
    else c :: pyReplaceGo pat rep fuel rest

/-- Python `s.replace(pat, rep)`. -/
def pyReplace (s pat rep : Str) : Str := pyReplaceGo pat rep s.length s

/-- The literal template placeholder for the title. -/
def titleToken : Str := ofString "\x7b\x7bTITLE\x7d\x7d"

/-- The literal template placeholder for the body. -/
def contentToken : Str := ofString "\x7b\x7bCONTENT\x7d\x7d"

/-- Lines 132-133 of the source:
`template.replace('{TITLE-token}', title).replace('{CONTENT-token}', html_content)`
(title substituted first, on the whole template). -/
def applyTemplate (template title htmlContent : Str) : Str :=
  pyReplace (pyReplace template titleToken title) contentToken htmlContent

/-! ## Helper lemmas -/

theorem splitNl_ne_nil (s : Str) : splitNl s ≠ [] := by
  induction s with
  | nil => simp [splitNl]
  | cons c rest ih =>
    by_cases h : c = '\n'
    · simp [splitNl, h]
    · cases hr : splitNl rest with
      | nil => exact absurd hr ih
      | cons l ls => simp [splitNl, h, hr]

theorem nl_not_mem_splitNl (s : Str) : ∀ l ∈ splitNl s, '\n' ∉ l := by
  induction s with
  | nil =>
    intro l hl
    simp [splitNl] at hl
    simp [hl]
  | cons c rest ih =>
    intro l hl
    by_cases h : c = '\n'
    · simp [splitNl, h] at hl
      rcases hl with rfl | hl
      · simp
      · exact ih l hl
    · cases hr : splitNl rest with
      | nil => exact absurd hr (splitNl_ne_nil rest)
      | cons l0 ls =>
        simp [splitNl, h, hr] at hl
        rcases hl with rfl | hl
        · intro hm
          rcases List.mem_cons.mp hm with hmc | hm0
          · exact h hmc.symm
          · exact ih l0 (hr ▸ List.mem_cons_self _ _) hm0
        · exact ih l (hr ▸ List.mem_cons_of_mem _ hl)

theorem splitNl_no_nl (l : Str) (h : '\n' ∉ l) : splitNl l = [l] := by
  induction l with
  | nil => rfl
  | cons c rest ih =>
    have hc : c ≠ '\n' := by
      rintro rfl
      exact h (List.mem_cons_self _ _)
    have hr : '\n' ∉ rest := fun hm => h (List.mem_cons_of_mem _ hm)
    simp [splitNl, hc, ih hr]

theorem splitNl_append_nl (l : Str) (h : '\n' ∉ l) (t : Str) :
    splitNl (l ++ '\n' :: t) = l :: splitNl t := by
  induction l with
  | nil => simp [splitNl]
  | cons c rest ih =>
    have hc : c ≠ '\n' := by
      rintro rfl
      exact h (List.mem_cons_self _ _)
    have hr : '\n' ∉ rest := fun hm => h (List.mem_cons_of_mem _ hm)
    simp [splitNl, hc, ih hr]

theorem joinNl_cons_cons (a b : Str) (t : List Str) :
    joinNl (a :: b :: t) = a ++ '\n' :: joinNl (b :: t) := rfl

theorem splitNl_joinNl (ls : List Str) (hne : ls ≠ [])
    (h : ∀ l ∈ ls, '\n' ∉ l) : splitNl (joinNl ls) = ls := by
  induction ls with
  | nil => exact absurd rfl hne
  | cons l tail ih =>
    cases tail with
    | nil => simpa [joinNl] using splitNl_no_nl l (h l (List.mem_cons_self _ _))
    | cons l2 t2 =>
      rw [joinNl_cons_cons, splitNl_append_nl l (h l (List.mem_cons_self _ _))]
      rw [ih (by simp) (fun x hx => h x (List.mem_cons_of_mem _ hx))]

theorem wrapLine_no_nl (l : Str) (h : '\n' ∉ l) : '\n' ∉ wrapLine l := by
  unfold wrapLine
  split
  · intro hm
    rcases List.mem_append.mp hm with hm1 | hm2
    · rcases List.mem_append.mp hm1 with ha | hb
      · exact absurd ha (by decide)
      · exact h hb
    · exact absurd hm2 (by decide)
  · exact h

theorem wrapLine_idem (l : Str) : wrapLine (wrapLine l) = wrapLine l := by
  by_cases h : (l.any fun ch => !isPySpace ch) ∧ ¬ strStarts (ofString "<") l ∧
      l ≠ ofString "<br>"
  · simp only [wrapLine, if_pos h]
    rw [if_neg]
    rintro ⟨-, hB, -⟩
    exact hB rfl
  · simp only [wrapLine, if_neg h]

theorem map_wrapLine_idem (ls : List Str) :
    (ls.map wrapLine).map wrapLine = ls.map wrapLine := by
  induction ls with
  | nil => rfl
  | cons l t ih => simp [wrapLine_idem, ih]

theorem numbered_not_bullet {l : Str} (h : isNumberedLine l = true) :
    isBulletLine l = false := by
  cases l with
  | nil => exact absurd h (by decide)
  | cons c r =>
    cases hc : ('0' ≤ c && c ≤ '9') with
    | false =>
      exfalso
      rw [isNumberedLine, numMarkerLen] at h
      simp [spanP, hc] at h
    | true =>
      have hcd : c ≠ '-' := by
        rintro rfl
        exact absurd hc (by decide)
      have hdec : decide ('-' = c) = false :=
        decide_eq_false (fun hh : '-' = c => hcd hh.symm)
      rw [isBulletLine]
      show (decide ('-' = c) && strStarts [' '] r) = false
      rw [hdec]
      exact Bool.false_and _

theorem spanP_append {p : Char → Bool} :
    ∀ (ds : Str) (x : Char) (t : Str), (∀ d ∈ ds, p d = true) → p x = false →
      spanP p (ds ++ x :: t) = (ds, x :: t) := by
  intro ds
  induction ds with
  | nil =>
    intro x t _ hx
    simp [spanP, hx]
  | cons d ds ih =>
    intro x t hd hx
    have hdt : p d = true := hd d (List.mem_cons_self _ _)
    simp [spanP, hdt, ih x t (fun a ha => hd a (List.mem_cons_of_mem _ ha)) hx]

/-! ## Claim theorems -/

/-- C1: the fence rewriter handles a default-tagged (`dart`) fence and an
otherwise-tagged fence as claimed, but on an untagged fence it produces
the empty class suffix `language-`, not the default `language-dart`: the
second substitution's `[a-zA-Z]*` also matches the empty tag and consumes
every untagged fence, so the third substitution (which hard-codes `dart`
for untagged fences) never fires. -/
theorem claim1_untagged_fence_empty_class :
    fenceStage (ofString "```dart\nA\n```") =
      ofString "<pre class=\"language-dart line-numbers\"><code class=\"language-dart\">A\n</code></pre>" ∧
    fenceStage (ofString "```rust\nB\n```") =
      ofString "<pre class=\"language-rust line-numbers\"><code class=\"language-rust\">B\n</code></pre>" ∧
    fenceStage (ofString "```\ncode\n```") =
      ofString "<pre class=\"language- line-numbers\"><code class=\"language-\">code\n</code></pre>" ∧
    fenceStage (ofString "```\ncode\n```") ≠
      ofString "<pre class=\"language-dart line-numbers\"><code class=\"language-dart\">code\n</code></pre>" :=
  ⟨by decide, by decide, by decide, by decide⟩

/-- C2 counterexample: on a bullet run immediately followed by a numbered
run the scanner emits the opening ordered-list tag BEFORE the closing
unordered-list tag, not after it as claimed. -/
theorem claim2_close_before_open_cex :
    listStage (ofString "- a\n1\\. b") =
      ofString "<ul>\n<li>a</li>\n<ol>\n</ul>\n<li>b</li>\n</ol>" ∧
    listStage (ofString "- a\n1\\. b") ≠
      ofString "<ul>\n<li>a</li>\n</ul>\n<ol>\n<li>b</li>\n</ol>" :=
  ⟨by decide, by decide⟩

/-- C3: the full transform on `"# Title\n\nSome *text*.\n\n- one\n- two\n"`
produces, in order: an h1 element, a blank line, a paragraph-wrapped
emphasis line, a blank line, the opening unordered-list tag, two list
items, and the closing unordered-list tag (followed by the trailing blank
line coming from the input's trailing newline). -/
theorem claim3_end_to_end :
    convert_markdown_to_html (ofString "# Title\n\nSome *text*.\n\n- one\n- two\n") =
      ofString "<h1>Title</h1>\n\n<p>Some <em>text</em>.</p>\n\n<ul>\n<li>one</li>\n<li>two</li>\n</ul>\n" := by
  decide

/-- C4 counterexample: the numbered-item pattern `[0-9]+\\. ` matches a
literal backslash followed by ANY character (the regex `.`), not only a
backslash-period pair: the line `12\x rest` is classified as a numbered
item and converted, contradicting the claim's "exactly when ...
backslash-period". -/
theorem claim4_numbered_marker_cex :
    isNumberedLine (ofString "12\\x rest") = true ∧
    listStage (ofString "12\\x rest") = ofString "<ol>\n<li>rest</li>\n</ol>" :=
  ⟨by decide, by decide⟩

/-- C5 counterexample: the final output for the single-line document
`[text](http://x)` is not wrapped in a paragraph element. -/
theorem claim5_isolated_link_cex :
    convert_markdown_to_html (ofString "[text](http://x)") ≠
      ofString "<p><a href=\"http://x\">text</a></p>" := by
  decide

/-- C5 amended: the link rewriter produces the anchor element, and the
paragraph-wrapping pass leaves it unwrapped, because by the time that pass
runs the line already starts with `<`; the final output is the bare
anchor. -/
theorem claim5_isolated_link :
    convert_markdown_to_html (ofString "[text](http://x)") =
      ofString "<a href=\"http://x\">text</a>" := by
  decide

/-- C7: the transform is a total function: it returns a string for every
input string, and on malformed markdown (here an unclosed fence) it
returns best-effort HTML rather than failing. -/
theorem claim7_total :
    (∀ s : Str, ∃ t : Str, convert_markdown_to_html s = t) ∧
    convert_markdown_to_html (ofString "```dart\nunclosed") =
      ofString "<p>```dart</p>\n<p>unclosed</p>" :=
  ⟨fun s => ⟨convert_markdown_to_html s, rfl⟩, by decide⟩

/-- C10: the inline-code rewriter requires at least one character between
the backticks (`[^`\n]+`): an empty span of two adjacent backticks is left
unchanged, while a one-character span is converted. -/
theorem claim10_empty_inline_span :
    inlineCodeStage (ofString "``") = ofString "``" ∧
    inlineCodeStage (ofString "a`x`b") = ofString "a<code>x</code>b" :=
  ⟨by decide, by decide⟩

theorem wrapStage_idem (s : Str) : wrapStage (wrapStage s) = wrapStage s := by
  unfold wrapStage
  rw [splitNl_joinNl]
  · rw [map_wrapLine_idem]
  · simp [splitNl_ne_nil s]
  · intro l hl
    rcases List.mem_map.mp hl with ⟨l0, hl0, rfl⟩
    exact wrapLine_no_nl l0 (nl_not_mem_splitNl s l0 hl0)

/-- C6 counterexample (negation of the claimed existence): running the
paragraph-wrapping stage twice is the same function as running it once, so
there is NO document on which a second run re-wraps a `<p>` line: every
line the pass wraps starts with `<` afterwards and is skipped by any
later run. -/
theorem claim6_no_double_wrap :
    (fun s : Str => wrapStage (wrapStage s)) = fun s : Str => wrapStage s :=
  funext wrapStage_idem

/-- C6 amended: the paragraph-wrapping stage is idempotent — a second run
returns the document unchanged for every input; in particular a line that
is already a `<p>` element is never re-wrapped in another `<p>` element. -/
theorem claim6_wrap_idempotent (s : Str) :
    wrapStage (wrapStage s) = wrapStage s :=
  wrapStage_idem s

/-- C2 amended: on a run-type switch the scanner emits the OPENING tag of
the new run before the CLOSING tag of the previously open run: a numbered
line arriving while a bullet run is open appends `<ol>`, `</ul>`, then the
item, and a bullet line arriving while an ordered run is open appends
`<ul>`, `</ol>`, then the item. -/
theorem claim2_open_before_close (line : Str) :
    (isNumberedLine line = true →
      (processLine (true, false) line).2 =
        [ofString "<ol>", ofString "</ul>", liWrap (stripNumMarker line)]) ∧
    (isBulletLine line = true →
      (processLine (false, true) line).2 =
        [ofString "<ul>", ofString "</ol>", liWrap (List.drop 2 line)]) := by
  constructor
  · intro h
    have hb : isBulletLine line = false := numbered_not_bullet h
    simp [processLine, hb, h]
  · intro h
    simp [processLine, h]

/-- Witness for the amended C2 theorem at the concrete switch input. -/
theorem claim2_open_before_close_witness :
    (processLine (true, false) (ofString "1\\. b")).2 =
      [ofString "<ol>", ofString "</ul>", ofString "<li>b</li>"] ∧
    (processLine (false, true) (ofString "- a")).2 =
      [ofString "<ul>", ofString "</ol>", ofString "<li>a</li>"] := by
  constructor
  · exact (claim2_open_before_close (ofString "1\\. b")).1 (by decide)
  · exact (claim2_open_before_close (ofString "- a")).2 (by decide)

/-- C4 amended: the scanner classifies a line as a numbered item exactly
when it starts with one or more digits, a literal backslash, ANY single
non-newline character (the regex `.`), and a space — not only when the
character after the backslash is a period; an ordinary Markdown numbered
line `1. item` (no backslash) is still not classified and passes through
the list scanner unchanged. -/
theorem claim4_numbered_marker (ds : Str) (c : Char) (r : Str)
    (hne : ds ≠ []) (hds : ∀ d ∈ ds, ('0' ≤ d && d ≤ '9') = true)
    (hc : c ≠ '\n') :
    isNumberedLine (ds ++ '\\' :: c :: ' ' :: r) = true ∧
    stripNumMarker (ds ++ '\\' :: c :: ' ' :: r) = r ∧
    isNumberedLine (ofString "1. item") = false ∧
    listStage (ofString "1. item") = ofString "1. item" := by
  have hspan := spanP_append ds '\\' (c :: ' ' :: r) hds (by decide)
  have hnum : numMarkerLen (ds ++ '\\' :: c :: ' ' :: r) = some (ds.length + 3) := by
    simp [numMarkerLen, hspan, hne, hc]
  refine ⟨?_, ?_, by decide, by decide⟩
  · simp [isNumberedLine, hnum]
  · rw [stripNumMarker, hnum]
    have h3 : (ds ++ ['\\', c, ' ']).length = ds.length + 3 := by simp
    calc List.drop (ds.length + 3) (ds ++ '\\' :: c :: ' ' :: r)
        = List.drop ((ds ++ ['\\', c, ' ']).length) ((ds ++ ['\\', c, ' ']) ++ r) := by
          rw [h3]; simp
      _ = r := List.drop_left _ _

/-- Witness for the amended C4 theorem at a concrete non-period marker. -/
theorem claim4_numbered_marker_witness :
    isNumberedLine (ofString "3\\_ z") = true ∧
    stripNumMarker (ofString "3\\_ z") = ofString "z" ∧
    isNumberedLine (ofString "1. item") = false ∧
    listStage (ofString "1. item") = ofString "1. item" :=
  claim4_numbered_marker ['3'] '_' (ofString "z") (by decide) (by decide) (by decide)

/-- C9: in the paragraph pass, blankness is decided on the trimmed line
but the markup check is on the untrimmed line: any line that begins with
a whitespace character yet contains some non-whitespace character is
wrapped in a paragraph element, even when its first non-whitespace
character is `<`. -/
theorem claim9_leading_space_wrapped (c : Char) (r : Str)
    (hc : isPySpace c = true)
    (hany : ((c :: r).any fun ch => !isPySpace ch) = true) :
    wrapLine (c :: r) = ofString "<p>" ++ (c :: r) ++ ofString "</p>" := by
  have hlt : c ≠ '<' := by
    intro h
    rw [h] at hc
    exact absurd hc (by decide)
  rw [wrapLine, if_pos]
  refine ⟨hany, ?_, ?_⟩
  · intro h
    have h3 : (decide ('<' = c) && strStarts [] r) = true := h
    simp only [strStarts, Bool.and_true, decide_eq_true_eq] at h3
    exact hlt h3.symm
  · intro h
    have h4 : c :: r = '<' :: ['b', 'r', '>'] := h
    injection h4 with h5 _
    exact hlt h5

/-- Witness for C9 at the concrete line of the claim. -/
theorem claim9_leading_space_wrapped_witness :
    wrapLine (ofString "  <ul>") = ofString "<p>  <ul></p>" :=
  claim9_leading_space_wrapped ' ' (ofString " <ul>") (by decide) (by decide)

/-! ## Lemmas about `pyReplaceGo`, used for claim C8 -/

theorem pyReplaceGo_nil (pat rep : Str) (f : Nat) : pyReplaceGo pat rep f [] = [] := by
  cases f <;> rfl

theorem strStarts_self_append (p t : Str) : strStarts p (p ++ t) = true := by
  induction p with
  | nil => rfl
  | cons c ps ih => simp [strStarts, ih]

theorem pyReplaceGo_skip (pat rep : Str) :
    ∀ (a s : Str) (f : Nat),
      (∀ k, k < a.length → strStarts pat (List.drop k a ++ s) = false) →
      pyReplaceGo pat rep f (a ++ s) = a ++ pyReplaceGo pat rep (f - a.length) s := by
  intro a
  induction a with
  | nil =>
    intro s f _
    simp
  | cons c a' ih =>
    intro s f h
    cases f with
    | zero => simp [pyReplaceGo, Nat.zero_sub]
    | succ fs =>
      have h0 : strStarts pat (c :: (a' ++ s)) = false := by
        have h00 := h 0 (by simp)
        simpa using h00
      have hrec := ih s fs (fun k hk => by
        have hkk := h (k + 1) (by simpa using Nat.succ_lt_succ hk)
        simpa using hkk)
      simp only [List.cons_append, List.append_eq, pyReplaceGo, h0,
        Bool.false_eq_true, if_false]
      rw [hrec]
      simp [Nat.succ_sub_succ]

theorem pyReplaceGo_match (p' rep b : Str) (f : Nat) :
    pyReplaceGo ('\x7b' :: p') rep (f + 1) (('\x7b' :: p') ++ b) =
      rep ++ pyReplaceGo ('\x7b' :: p') rep f b := by
  have hs : strStarts ('\x7b' :: p') (('\x7b' :: p') ++ b) = true :=
    strStarts_self_append _ _
  have hd : List.drop (('\x7b' :: p').length) (('\x7b' :: p') ++ b) = b :=
    List.drop_left _ _
  simp only [List.cons_append] at hs hd
  simp [pyReplaceGo, hs, hd]

theorem strStarts_brace_free (p' a s : Str) (hb : '\x7b' ∉ a) :
    ∀ k, k < a.length → strStarts ('\x7b' :: p') (List.drop k a ++ s) = false := by
  intro k hk
  cases hdk : List.drop k a with
  | nil =>
    exfalso
    have := List.drop_eq_nil_iff.mp hdk
    omega
  | cons x t =>
    have hx : x ∈ a := List.drop_subset k a (hdk ▸ List.mem_cons_self x t)
    have hxb : x ≠ '\x7b' := fun hh => hb (hh ▸ hx)
    show (decide ('\x7b' = x) && strStarts p' (t ++ s)) = false
    rw [decide_eq_false (fun hh : '\x7b' = x => hxb hh.symm)]
    exact Bool.false_and _

theorem pyReplaceGo_no_brace (p' rep d : Str) (hb : '\x7b' ∉ d) (f : Nat) :
    pyReplaceGo ('\x7b' :: p') rep f d = d := by
  have hsk := pyReplaceGo_skip ('\x7b' :: p') rep d [] f (fun k hk => by
    simpa using strStarts_brace_free p' d [] hb k hk)
  simpa [pyReplaceGo_nil] using hsk

theorem pyReplaceGo_split_bf (p' rep a b : Str) (f : Nat) (ha : '\x7b' ∉ a)
    (hf : a.length + 1 ≤ f) :
    pyReplaceGo ('\x7b' :: p') rep f (a ++ (('\x7b' :: p') ++ b)) =
      a ++ (rep ++ pyReplaceGo ('\x7b' :: p') rep (f - a.length - 1) b) := by
  rw [pyReplaceGo_skip ('\x7b' :: p') rep a _ f (strStarts_brace_free p' a _ ha)]
  have h2 : f - a.length = (f - a.length - 1) + 1 := by omega
  rw [h2, pyReplaceGo_match]
  simp [Nat.add_sub_cancel]

theorem brace_free_append {x y : Str} (hx : '\x7b' ∉ x) (hy : '\x7b' ∉ y) :
    '\x7b' ∉ x ++ y := by
  intro hm
  rcases List.mem_append.mp hm with h1 | h1
  · exact hx h1
  · exact hy h1

theorem strStarts_title_at_content (d : Str) :
    ∀ k, k < contentToken.length →
      strStarts titleToken (List.drop k contentToken ++ d) = false := by
  intro k hk
  have h11 : contentToken.length = 11 := rfl
  rw [h11] at hk
  interval_cases k <;> rfl

theorem pass1_eval (a b cc d title : Str)
    (ha : '\x7b' ∉ a) (hb : '\x7b' ∉ b) (hcc : '\x7b' ∉ cc) (hd : '\x7b' ∉ d) :
    pyReplace (a ++ titleToken ++ b ++ titleToken ++ cc ++ contentToken ++ d)
        titleToken title =
      a ++ title ++ b ++ title ++ cc ++ contentToken ++ d := by
  have hTT : titleToken = '\x7b' :: ['\x7b', 'T', 'I', 'T', 'L', 'E', '\x7d', '\x7d'] := rfl
  have h11 : contentToken.length = 11 := rfl
  unfold pyReplace
  rw [hTT]
  simp only [List.append_assoc]
  rw [pyReplaceGo_split_bf _ title a _ _ ha
    (by simp [List.length_append, h11])]
  rw [pyReplaceGo_split_bf _ title b _ _ hb
    (by simp [List.length_append, h11]
        omega)]
  rw [pyReplaceGo_skip _ title cc _ _ (strStarts_brace_free _ cc _ hcc)]
  rw [pyReplaceGo_skip ['\x7b', '\x7b', 'T', 'I', 'T', 'L', 'E', '\x7d', '\x7d']
    title contentToken d _ (fun k hk => strStarts_title_at_content d k hk)]
  rw [pyReplaceGo_no_brace _ title d hd]

theorem pass2_eval (a1 a2 a3 d h : Str)
    (h1 : '\x7b' ∉ a1) (h2 : '\x7b' ∉ a2) (h3 : '\x7b' ∉ a3) (hd : '\x7b' ∉ d) :
    pyReplace (a1 ++ contentToken ++ a2 ++ contentToken ++ a3 ++ contentToken ++ d)
        contentToken h =
      a1 ++ h ++ a2 ++ h ++ a3 ++ h ++ d := by
  have hCC : contentToken =
      '\x7b' :: ['\x7b', 'C', 'O', 'N', 'T', 'E', 'N', 'T', '\x7d', '\x7d'] := rfl
  unfold pyReplace
  rw [hCC]
  simp only [List.append_assoc]
  rw [pyReplaceGo_split_bf _ h a1 _ _ h1 (by simp [List.length_append])]
  rw [pyReplaceGo_split_bf _ h a2 _ _ h2
    (by simp [List.length_append]
        omega)]
  rw [pyReplaceGo_split_bf _ h a3 _ _ h3
    (by simp [List.length_append]
        omega)]
  rw [pyReplaceGo_no_brace _ h d hd]

/-- C8: template substitution replaces EVERY occurrence of the title
placeholder and then every occurrence of the content placeholder, and the
title pass runs first on the whole template, so a content placeholder
contained in the supplied title string also receives the transformed HTML
body.  Stated for a template with two title placeholders and one content
placeholder separated by placeholder-free segments, a title containing a
content placeholder, and a placeholder-free body. -/
theorem claim8_template_subst (a b cc d t1 t2 h : Str)
    (ha : '\x7b' ∉ a) (hb : '\x7b' ∉ b) (hcc : '\x7b' ∉ cc) (hd : '\x7b' ∉ d)
    (ht1 : '\x7b' ∉ t1) (ht2 : '\x7b' ∉ t2) (hh : '\x7b' ∉ h) :
    applyTemplate (a ++ titleToken ++ b ++ titleToken ++ cc ++ contentToken ++ d)
        (t1 ++ contentToken ++ t2) h =
      a ++ t1 ++ h ++ t2 ++ b ++ t1 ++ h ++ t2 ++ cc ++ h ++ d := by
  unfold applyTemplate
  rw [pass1_eval a b cc d _ ha hb hcc hd]
  have hre : a ++ (t1 ++ contentToken ++ t2) ++ b ++ (t1 ++ contentToken ++ t2) ++
        cc ++ contentToken ++ d =
      (a ++ t1) ++ contentToken ++ (t2 ++ b ++ t1) ++ contentToken ++
        (t2 ++ cc) ++ contentToken ++ d := by
    simp [List.append_assoc]
  rw [hre]
  rw [pass2_eval (a ++ t1) (t2 ++ b ++ t1) (t2 ++ cc) d h
    (brace_free_append ha ht1)
    (brace_free_append (brace_free_append ht2 hb) ht1)
    (brace_free_append ht2 hcc) hd]
  simp [List.append_assoc]

/-- Witness for C8 at concrete template, title and body strings. -/
theorem claim8_template_subst_witness :
    applyTemplate (ofString "<html>" ++ titleToken ++ ofString "|" ++ titleToken ++
        ofString "|" ++ contentToken ++ ofString "</html>")
        (ofString "T" ++ contentToken ++ ofString "U") (ofString "<p>x</p>") =
      ofString "<html>" ++ ofString "T" ++ ofString "<p>x</p>" ++ ofString "U" ++
        ofString "|" ++ ofString "T" ++ ofString "<p>x</p>" ++ ofString "U" ++
        ofString "|" ++ ofString "<p>x</p>" ++ ofString "</html>" :=
  claim8_template_subst (ofString "<html>") (ofString "|") (ofString "|")
    (ofString "</html>") (ofString "T") (ofString "U") (ofString "<p>x</p>")
    (by decide) (by decide) (by decide) (by decide) (by decide) (by decide) (by decide)

end MdToHtml
